import Mathlib

/-!
Shallow embedding of the BiLinearEQ filter core (`BiLinearFilters.h`) and of its
oversampling wrapper (`PluginWrapper.h`).

Samples and parameters are modelled as exact rationals; the per-channel register
vectors `Wn_1`, `Xn_1`, `Yn_1` as lists of rationals.  The repository sources
contain the class headers (with the body of `BiLinearFilters::process` inline);
the remaining method bodies live in translation units that are not part of the
sources, so those operations are modelled from the specification, each marked
`Modelled from the spec:` in its doc comment.
-/

namespace BiLinearEQ

/-- Filter response shapes, from the `FilterType` enum in `BiLinearFilters.h`. -/
inductive FilterType
  | lowPass
  | highPass
  | lowShelf
  | lowShelfC
  | highShelf
  | highShelfC
deriving DecidableEq, Repr

/-- Realization selector, from the `TransformationType` enum in `BiLinearFilters.h`. -/
inductive TransformationType
  | directFormI
  | directFormII
  | directFormItransposed
  | directFormIItransposed
deriving DecidableEq, Repr

/-- Modelled from the spec: the frequency smoother is a `juce::SmoothedValue` with
multiplicative smoothing (library code, not part of this repository).  It carries the
current value, the target value, the per-sample step factor, the remaining countdown
in samples, and the configured ramp length in samples. -/
structure MulSmoother where
  cur : ℚ
  tgt : ℚ
  step : ℚ
  countdown : ℕ
  rampLen : ℕ
deriving DecidableEq, Repr

/-- Advance the multiplicative smoother by one sample: when the countdown runs out the
current value lands exactly on the target, otherwise it is multiplied by the step. -/
def MulSmoother.advance (s : MulSmoother) : MulSmoother :=
  if s.countdown ≤ 1 then { s with cur := s.tgt, countdown := 0 }
  else { s with cur := s.cur * s.step, countdown := s.countdown - 1 }

/-- Skip the multiplicative smoother forward by `n` samples without producing output. -/
def MulSmoother.skip (s : MulSmoother) (n : ℕ) : MulSmoother :=
  if s.countdown ≤ n then { s with cur := s.tgt, countdown := 0 }
  else { s with cur := s.cur * s.step ^ n, countdown := s.countdown - n }

/-- Modelled from the spec: setting a new target restarts the ramp.  The exact
per-sample multiplicative step is an n-th root computed inside the library smoother
(not rational, and no claim depends on its value), so the step field is carried
unchanged. -/
def MulSmoother.setTarget (s : MulSmoother) (v : ℚ) : MulSmoother :=
  { s with tgt := v, countdown := s.rampLen }

/-- Modelled from the spec: the gain smoother is a `juce::SmoothedValue` with linear
(additive) smoothing. -/
structure LinSmoother where
  cur : ℚ
  tgt : ℚ
  step : ℚ
  countdown : ℕ
  rampLen : ℕ
deriving DecidableEq, Repr

/-- Advance the linear smoother by one sample. -/
def LinSmoother.advance (s : LinSmoother) : LinSmoother :=
  if s.countdown ≤ 1 then { s with cur := s.tgt, countdown := 0 }
  else { s with cur := s.cur + s.step, countdown := s.countdown - 1 }

/-- Skip the linear smoother forward by `n` samples without producing output. -/
def LinSmoother.skip (s : LinSmoother) (n : ℕ) : LinSmoother :=
  if s.countdown ≤ n then { s with cur := s.tgt, countdown := 0 }
  else { s with cur := s.cur + s.step * n, countdown := s.countdown - n }

/-- Modelled from the spec: setting a new target restarts the ramp; the additive step
divides the remaining distance by the ramp length. -/
def LinSmoother.setTarget (s : LinSmoother) (v : ℚ) : LinSmoother :=
  { s with tgt := v, step := (v - s.cur) / (s.rampLen : ℚ), countdown := s.rampLen }

/-- The two feed-forward and two feedback coefficient taps shared by all channels. -/
structure Coeffs where
  b0 : ℚ
  b1 : ℚ
  a0 : ℚ
  a1 : ℚ
deriving DecidableEq, Repr

/-- Modelled from the spec: the body of `BiLinearFilters::coefficients` is not in the
repository sources.  The spec fixes its shape only: the coefficients are a pure
function of (sampleRate, smoothed frequency, smoothed gain, filterType); the plain
pass formulas do not involve the gain ("Ignored by pass filter types"), the shelf
formulas scale by the gain, and the compensated shelf variants adjust the warped
frequency term by the gain.  The exact closed forms are an explicit open question of
the spec, so representative first-order bilinear formulas are used, with `K`
standing in for the warped frequency term. -/
def coefficients (filtType : FilterType) (sampleRate hz g : ℚ) : Coeffs :=
  let K : ℚ := hz / sampleRate
  match filtType with
  | FilterType.lowPass => ⟨K / (K + 1), K / (K + 1), 1, (K - 1) / (K + 1)⟩
  | FilterType.highPass => ⟨1 / (K + 1), -1 / (K + 1), 1, (K - 1) / (K + 1)⟩
  | FilterType.lowShelf => ⟨(K * g + 1) / (K + 1), (K * g - 1) / (K + 1), 1, (K - 1) / (K + 1)⟩
  | FilterType.lowShelfC =>
      let Kc : ℚ := K / (1 + g)
      ⟨(Kc * g + 1) / (Kc + 1), (Kc * g - 1) / (Kc + 1), 1, (Kc - 1) / (Kc + 1)⟩
  | FilterType.highShelf => ⟨(K + g) / (K + 1), (K - g) / (K + 1), 1, (K - 1) / (K + 1)⟩
  | FilterType.highShelfC =>
      let Kc : ℚ := K * (1 + g)
      ⟨(Kc + g) / (Kc + 1), (Kc - g) / (Kc + 1), 1, (Kc - 1) / (Kc + 1)⟩

/-- The `BiLinearFilters<SampleType>` class state, translated from the member list of
`BiLinearFilters.h` (registers `Wn_1`, `Xn_1`, `Yn_1` as per-channel lists, the four
coefficient gains, the two parameter smoothers, and the parameters with their
in-class initialisers). -/
structure BiLinearFilters where
  sampleRate : ℚ := 44100
  rampDurationSeconds : ℚ := 0.00005
  Wn_1 : List ℚ := []
  Xn_1 : List ℚ := []
  Yn_1 : List ℚ := []
  b0 : ℚ := 1
  b1 : ℚ := 0
  a0 : ℚ := 1
  a1 : ℚ := 0
  frq : MulSmoother
  lev : LinSmoother
  minFreq : ℚ := 20
  maxFreq : ℚ := 20000
  hz : ℚ := 1000
  g : ℚ := 0
  filtType : FilterType := FilterType.lowPass
  transformType : TransformationType := TransformationType.directFormIItransposed
deriving DecidableEq, Repr

/-- A freshly constructed filter: every member takes its in-class initialiser from
`BiLinearFilters.h`; the smoothers start settled at zero. -/
def BiLinearFilters.init : BiLinearFilters :=
  { frq := { cur := 0, tgt := 0, step := 1, countdown := 0, rampLen := 0 }
    lev := { cur := 0, tgt := 0, step := 0, countdown := 0, rampLen := 0 } }

/-- Error raised by a setter on an out-of-range argument. -/
inductive SetterError
  | invalidParameter
deriving DecidableEq, Repr

/-- Modelled from the spec: the body of `BiLinearFilters::setFrequency` is not in the
repository sources (only its declaration, the doc comment "Range = 20..20000", and
the members `minFreq = 20`, `maxFreq = 20000`).  Per the spec it fails with
InvalidParameter outside [20, 20000] — no silent clamping — and otherwise sets the
new frequency smoothing target. -/
def BiLinearFilters.setFrequency (s : BiLinearFilters) (newFreq : ℚ) :
    Except SetterError BiLinearFilters :=
  if newFreq < s.minFreq ∨ s.maxFreq < newFreq then
    Except.error SetterError.invalidParameter
  else
    Except.ok { s with hz := newFreq, frq := s.frq.setTarget newFreq }

/-- Modelled from the spec: the body of `BiLinearFilters::setGain` is not in the
repository sources.  It accepts any value and sets the new gain smoothing target. -/
def BiLinearFilters.setGain (s : BiLinearFilters) (newGain : ℚ) : BiLinearFilters :=
  { s with g := newGain, lev := s.lev.setTarget newGain }

/-- Modelled from the spec: the body of `BiLinearFilters::setFilterType` is not in
the repository sources.  It switches the active filter-type variant. -/
def BiLinearFilters.setFilterType (s : BiLinearFilters) (t : FilterType) : BiLinearFilters :=
  { s with filtType := t }

/-- Modelled from the spec: the body of `BiLinearFilters::setTransformType` is not in
the repository sources.  It switches the active realization variant. -/
def BiLinearFilters.setTransformType (s : BiLinearFilters) (t : TransformationType) :
    BiLinearFilters :=
  { s with transformType := t }

/-- Modelled from the spec: the body of `BiLinearFilters::setRampDurationSeconds` is
not in the repository sources.  It configures the smoothing time constant. -/
def BiLinearFilters.setRampDurationSeconds (s : BiLinearFilters) (d : ℚ) : BiLinearFilters :=
  { s with rampDurationSeconds := d }

/-- Modelled from the spec: the body of `BiLinearFilters::getRampDurationSeconds` is
not in the repository sources.  It returns the configured ramp duration. -/
def BiLinearFilters.getRampDurationSeconds (s : BiLinearFilters) : ℚ :=
  s.rampDurationSeconds

/-- Modelled from the spec: the body of `BiLinearFilters::reset` is not in the
repository sources.  It sets every register in every channel to `initialValue`. -/
def BiLinearFilters.reset (s : BiLinearFilters) (initialValue : ℚ) : BiLinearFilters :=
  { s with
    Wn_1 := List.replicate s.Wn_1.length initialValue
    Xn_1 := List.replicate s.Xn_1.length initialValue
    Yn_1 := List.replicate s.Yn_1.length initialValue }

/-- Snap a single register value to zero when its magnitude is below the denormal
threshold `thr`, and keep it unchanged otherwise. -/
def snapOne (thr x : ℚ) : ℚ :=
  if |x| < thr then 0 else x

/-- Modelled from the spec: the body of `BiLinearFilters::snapToZero` is not in the
repository sources.  It examines every register of every channel and forces to exact
zero any value smaller in magnitude than the platform's denormal threshold, which is
modelled as the parameter `thr` (rationals have no subnormal range). -/
def BiLinearFilters.snapToZero (s : BiLinearFilters) (thr : ℚ) : BiLinearFilters :=
  { s with
    Wn_1 := s.Wn_1.map (snapOne thr)
    Xn_1 := s.Xn_1.map (snapOne thr)
    Yn_1 := s.Yn_1.map (snapOne thr) }

/-- Modelled from the spec: the body of `BiLinearFilters::directFormI` is not in the
repository sources.  Per the spec table it uses the `Xn_1` (input-history) and `Yn_1`
(output-history) registers: the output is computed from the current and delayed input
and the delayed output, then both histories shift.  The state is `(Xn_1, Yn_1)`. -/
def dfIStep (c : Coeffs) (st : ℚ × ℚ) (x : ℚ) : (ℚ × ℚ) × ℚ :=
  let y := (c.b0 * x + c.b1 * st.1 - c.a1 * st.2) / c.a0
  ((x, y), y)

/-- Modelled from the spec: the body of `BiLinearFilters::directFormII` is not in the
repository sources.  Per the spec table it uses the single `Wn_1` register: an
intermediate `w` is computed from the input and the delayed `w`, the output from `w`
and the delayed `w`, then `w` shifts. -/
def dfIIStep (c : Coeffs) (w1 : ℚ) (x : ℚ) : ℚ × ℚ :=
  let w := (x - c.a1 * w1) / c.a0
  (w, c.b0 * w + c.b1 * w1)

/-- Modelled from the spec: the body of `BiLinearFilters::directFormITransposed` is
not in the repository sources.  Per the spec table it uses `Wn_1` and `Xn_1` as two
separate delay taps in transposed topology: the feedback tap feeds the intermediate
node, the feed-forward tap feeds the output, and both taps are refilled from the
intermediate node.  The state is `(Wn_1, Xn_1)`. -/
def dfITStep (c : Coeffs) (st : ℚ × ℚ) (x : ℚ) : (ℚ × ℚ) × ℚ :=
  let v := (x + st.1) / c.a0
  let y := c.b0 * v + st.2
  ((-c.a1 * v, c.b1 * v), y)

/-- Modelled from the spec: the body of `BiLinearFilters::directFormIITransposed` is
not in the repository sources.  Per the spec table a single delay element carries the
combined feed-forward/feedback state (stored in `Wn_1`). -/
def dfIITStep (c : Coeffs) (s1 : ℚ) (x : ℚ) : ℚ × ℚ :=
  let y := (c.b0 * x + s1) / c.a0
  (c.b1 * x - c.a1 * y, y)

/-- Run a single-sample state-update step over a whole input sequence, threading the
state and collecting the outputs. -/
def runFilter {σ : Type} (step : σ → ℚ → σ × ℚ) : σ → List ℚ → σ × List ℚ
  | s, [] => (s, [])
  | s, x :: xs =>
      let p := step s x
      let r := runFilter step p.1 xs
      (r.1, p.2 :: r.2)

/-- Output sequence of Direct Form I from zeroed registers. -/
def dfIOut (c : Coeffs) (xs : List ℚ) : List ℚ :=
  (runFilter (dfIStep c) (0, 0) xs).2

/-- Output sequence of Direct Form II from a zeroed register. -/
def dfIIOut (c : Coeffs) (xs : List ℚ) : List ℚ :=
  (runFilter (dfIIStep c) 0 xs).2

/-- Output sequence of Direct Form I transposed from zeroed registers. -/
def dfITOut (c : Coeffs) (xs : List ℚ) : List ℚ :=
  (runFilter (dfITStep c) (0, 0) xs).2

/-- Output sequence of Direct Form II transposed from a zeroed register. -/
def dfIITOut (c : Coeffs) (xs : List ℚ) : List ℚ :=
  (runFilter (dfIITStep c) 0 xs).2

/-- The coefficient record currently stored in the filter state. -/
def BiLinearFilters.coeffs (s : BiLinearFilters) : Coeffs :=
  ⟨s.b0, s.b1, s.a0, s.a1⟩

/-- Dispatch one sample through the realization selected by `transformType`, reading
and writing the per-channel registers of the filter state.  Register reads outside
the allocated channel range yield 0 and writes are dropped (the C++ code indexes the
vectors directly; the contract requires `prepare` first). -/
def BiLinearFilters.applyForm (s : BiLinearFilters) (channel : ℕ) (x : ℚ) :
    BiLinearFilters × ℚ :=
  match s.transformType with
  | TransformationType.directFormI =>
      let p := dfIStep s.coeffs (s.Xn_1.getD channel 0, s.Yn_1.getD channel 0) x
      ({ s with Xn_1 := s.Xn_1.set channel p.1.1, Yn_1 := s.Yn_1.set channel p.1.2 }, p.2)
  | TransformationType.directFormII =>
      let p := dfIIStep s.coeffs (s.Wn_1.getD channel 0) x
      ({ s with Wn_1 := s.Wn_1.set channel p.1 }, p.2)
  | TransformationType.directFormItransposed =>
      let p := dfITStep s.coeffs (s.Wn_1.getD channel 0, s.Xn_1.getD channel 0) x
      ({ s with Wn_1 := s.Wn_1.set channel p.1.1, Xn_1 := s.Xn_1.set channel p.1.2 }, p.2)
  | TransformationType.directFormIItransposed =>
      let p := dfIITStep s.coeffs (s.Wn_1.getD channel 0) x
      ({ s with Wn_1 := s.Wn_1.set channel p.1 }, p.2)

/-- `isSmoothing` from the spec: true while either smoother has not reached its
target. -/
def BiLinearFilters.isSmoothing (s : BiLinearFilters) : Prop :=
  s.frq.countdown ≠ 0 ∨ s.lev.countdown ≠ 0

instance (s : BiLinearFilters) : Decidable s.isSmoothing := by
  unfold BiLinearFilters.isSmoothing
  infer_instance

/-- Modelled from the spec: the body of `BiLinearFilters::processSample` is not in
the repository sources.  Per the spec it advances the smoothers by one sample,
recomputes the coefficients if smoothing is still in progress, dispatches to the
active realization's single-sample update on the given channel, and returns the
filtered sample. -/
def BiLinearFilters.processSample (s : BiLinearFilters) (channel : ℕ) (x : ℚ) :
    BiLinearFilters × ℚ :=
  let s1 : BiLinearFilters := { s with frq := s.frq.advance, lev := s.lev.advance }
  let s2 : BiLinearFilters :=
    if s.isSmoothing then
      let c := coefficients s1.filtType s1.sampleRate s1.frq.cur s1.lev.cur
      { s1 with b0 := c.b0, b1 := c.b1, a0 := c.a0, a1 := c.a1 }
    else s1
  s2.applyForm channel x

/-- The inner loop of `BiLinearFilters::process`: one channel's samples pushed
through `processSample` in order, threading the filter state. -/
def BiLinearFilters.runSamples (s : BiLinearFilters) (channel : ℕ) :
    List ℚ → BiLinearFilters × List ℚ
  | [] => (s, [])
  | x :: xs =>
      let p := s.processSample channel x
      let r := p.1.runSamples channel xs
      (r.1, p.2 :: r.2)

/-- The outer loop of `BiLinearFilters::process`: the channels in order, starting at
channel index `channel`, threading the filter state across channels. -/
def BiLinearFilters.runChannels (s : BiLinearFilters) (channel : ℕ) :
    List (List ℚ) → BiLinearFilters × List (List ℚ)
  | [] => (s, [])
  | chan :: rest =>
      let p := s.runSamples channel chan
      let r := p.1.runChannels (channel + 1) rest
      (r.1, p.2 :: r.2)

/-- The sample count of a block, `getNumSamples()`: the common length of its channel
buffers (taken from the first channel). -/
def blockNumSamples (input : List (List ℚ)) : ℕ :=
  (input.headD []).length

/-- `BiLinearFilters::process`, translated from the inline body in
`BiLinearFilters.h`: when the context is bypassed, both smoothers are skipped
forward by the input block's sample count and the output block is a plain copy of
the input block; otherwise each channel's samples go through `processSample` in
channel-major order.  The input block is a channel-major list of sample lists, and
the produced output block is returned (the compile-time snap-to-zero flag is taken
as disabled). -/
def BiLinearFilters.process (s : BiLinearFilters) (input : List (List ℚ))
    (bypassed : Bool) : BiLinearFilters × List (List ℚ) :=
  let len := blockNumSamples input
  if bypassed then
    ({ s with frq := s.frq.skip len, lev := s.lev.skip len }, input)
  else
    s.runChannels 0 input

/-- Modelled from the spec: the `ProcessWrapper` bodies are not in the repository
sources (only the class header `PluginWrapper.h`).  The wrapper keeps five pre-built
oversampling stages; each stage is a black box carrying only the latency it was
built with.  Stage index `i` has factor `2 ^ i`, so index 0 is the 1x stage and
index 2 is the 4x stage. -/
structure ProcessWrapper where
  stageLatency : Fin 5 → ℚ
  osIndex : Fin 5

/-- Modelled from the spec: `prepare` (re)builds all five oversampling stages; the
1x stage introduces zero latency, the others the latency the black-box oversampler
reports for them, given here as `raw`. -/
def ProcessWrapper.prepare (w : ProcessWrapper) (raw : Fin 5 → ℚ) : ProcessWrapper :=
  { w with stageLatency := fun i => if i = 0 then 0 else raw i }

/-- Modelled from the spec: `setOversampling` selects the active stage by index. -/
def ProcessWrapper.setOversampling (w : ProcessWrapper) (i : Fin 5) : ProcessWrapper :=
  { w with osIndex := i }

/-- Modelled from the spec: `getLatencySamples` reports the latency of the currently
selected oversampling stage. -/
def ProcessWrapper.getLatencySamples (w : ProcessWrapper) : ℚ :=
  w.stageLatency w.osIndex

/-! ### Smoother timing lemmas -/

/-- One multiplicative-smoother step decrements the countdown (truncated at zero). -/
lemma MulSmoother.mulAdvance_countdown (s : MulSmoother) :
    s.advance.countdown = s.countdown - 1 := by
  unfold MulSmoother.advance
  split <;> simp_all

/-- `n` multiplicative-smoother steps decrement the countdown by `n`. -/
lemma MulSmoother.mulIterate_advance_countdown (n : ℕ) (s : MulSmoother) :
    (MulSmoother.advance^[n] s).countdown = s.countdown - n := by
  induction n generalizing s with
  | zero => simp
  | succ n ih =>
      rw [Function.iterate_succ_apply]
      rw [ih]
      rw [MulSmoother.mulAdvance_countdown]
      omega

/-- Skipping the multiplicative smoother by `n` decrements the countdown by `n`. -/
lemma MulSmoother.mulSkip_countdown (s : MulSmoother) (n : ℕ) :
    (s.skip n).countdown = s.countdown - n := by
  unfold MulSmoother.skip
  split <;> simp_all

/-- One linear-smoother step decrements the countdown (truncated at zero). -/
lemma LinSmoother.linAdvance_countdown (s : LinSmoother) :
    s.advance.countdown = s.countdown - 1 := by
  unfold LinSmoother.advance
  split <;> simp_all

/-- `n` linear-smoother steps decrement the countdown by `n`. -/
lemma LinSmoother.linIterate_advance_countdown (n : ℕ) (s : LinSmoother) :
    (LinSmoother.advance^[n] s).countdown = s.countdown - n := by
  induction n generalizing s with
  | zero => simp
  | succ n ih =>
      rw [Function.iterate_succ_apply]
      rw [ih]
      rw [LinSmoother.linAdvance_countdown]
      omega

/-- Skipping the linear smoother by `n` decrements the countdown by `n`. -/
lemma LinSmoother.linSkip_countdown (s : LinSmoother) (n : ℕ) :
    (s.skip n).countdown = s.countdown - n := by
  unfold LinSmoother.skip
  split <;> simp_all

/-- Claim C1: `process` with `bypassed = true` returns the input block unchanged
(bit-identical copy), the resulting state differs from the input state only in that
the frequency and gain smoothers have been skipped forward by exactly the block's
sample count, and that skip leaves each smoother's remaining countdown exactly where
advancing it one sample at a time over the block would have left it, so convergence
timing matches unbypassed per-sample advancement. -/
theorem process_bypassed_copies_and_skips (s : BiLinearFilters) (input : List (List ℚ)) :
    (s.process input true).2 = input ∧
    (s.process input true).1 =
      { s with
        frq := s.frq.skip (blockNumSamples input)
        lev := s.lev.skip (blockNumSamples input) } ∧
    (s.process input true).1.frq.countdown =
      (MulSmoother.advance^[blockNumSamples input] s.frq).countdown ∧
    (s.process input true).1.lev.countdown =
      (LinSmoother.advance^[blockNumSamples input] s.lev).countdown := by
  refine ⟨rfl, rfl, ?_, ?_⟩
  · show (s.frq.skip (blockNumSamples input)).countdown = _
    rw [MulSmoother.mulSkip_countdown, MulSmoother.mulIterate_advance_countdown]
  · show (s.lev.skip (blockNumSamples input)).countdown = _
    rw [LinSmoother.linSkip_countdown, LinSmoother.linIterate_advance_countdown]

/-- Claim C9: a freshly constructed filter has a smoothing ramp duration of exactly
0.00005 seconds (the in-class initialiser in `BiLinearFilters.h`), and
`getRampDurationSeconds` returns whatever `setRampDurationSeconds` stored. -/
theorem rampDuration_default_and_roundtrip :
    BiLinearFilters.init.getRampDurationSeconds = 0.00005 ∧
    ∀ (s : BiLinearFilters) (d : ℚ),
      (s.setRampDurationSeconds d).getRampDurationSeconds = d :=
  ⟨rfl, fun _ _ => rfl⟩

/-- Claim C8: `getLatencySamples` returns the latency of the oversampling stage
currently selected by the oversampling-factor index, as built during `prepare`; the
1x stage (index 0) reports 0, and after selecting the 4x stage (index 2) it reports
that stage's built latency. -/
theorem getLatencySamples_selected_stage (w : ProcessWrapper) (raw : Fin 5 → ℚ)
    (i : Fin 5) :
    ((w.prepare raw).setOversampling i).getLatencySamples = (w.prepare raw).stageLatency i ∧
    ((w.prepare raw).setOversampling 0).getLatencySamples = 0 ∧
    ((w.prepare raw).setOversampling 2).getLatencySamples = raw 2 := by
  refine ⟨rfl, ?_, ?_⟩
  · simp [ProcessWrapper.getLatencySamples, ProcessWrapper.setOversampling,
      ProcessWrapper.prepare]
  · simp [ProcessWrapper.getLatencySamples, ProcessWrapper.setOversampling,
      ProcessWrapper.prepare]

/-- A concrete two-channel filter state used to instantiate theorems with
hypotheses on explicit inputs. -/
def testFilter : BiLinearFilters :=
  { BiLinearFilters.init with
      Wn_1 := [2, 5]
      Xn_1 := [3, -2]
      Yn_1 := [-4, 7] }

/-- Claim C5: `reset v` keeps the length of every register array and sets every
element of every register array, for every channel index, to exactly `v`. -/
theorem reset_fills_registers (s : BiLinearFilters) (v : ℚ) :
    ((s.reset v).Wn_1.length = s.Wn_1.length ∧
      ∀ i, i < s.Wn_1.length → (s.reset v).Wn_1.getD i 0 = v) ∧
    ((s.reset v).Xn_1.length = s.Xn_1.length ∧
      ∀ i, i < s.Xn_1.length → (s.reset v).Xn_1.getD i 0 = v) ∧
    ((s.reset v).Yn_1.length = s.Yn_1.length ∧
      ∀ i, i < s.Yn_1.length → (s.reset v).Yn_1.getD i 0 = v) := by
  refine ⟨⟨by simp [BiLinearFilters.reset], ?_⟩, ⟨by simp [BiLinearFilters.reset], ?_⟩,
    ⟨by simp [BiLinearFilters.reset], ?_⟩⟩ <;>
    intro i hi <;>
    simp only [BiLinearFilters.reset] <;>
    rw [List.getD_eq_getElem _ _ (by simpa using hi)] <;>
    simp

/-- Claim C5 witness: resetting the concrete two-channel state to 7 puts 7 in every
register slot of every channel. -/
theorem reset_fills_registers_applied :
    (testFilter.reset 7).Wn_1.getD 0 0 = 7 ∧ (testFilter.reset 7).Wn_1.getD 1 0 = 7 ∧
    (testFilter.reset 7).Xn_1.getD 0 0 = 7 ∧ (testFilter.reset 7).Yn_1.getD 1 0 = 7 :=
  ⟨(reset_fills_registers testFilter 7).1.2 0 (by decide),
   (reset_fills_registers testFilter 7).1.2 1 (by decide),
   (reset_fills_registers testFilter 7).2.1.2 0 (by decide),
   (reset_fills_registers testFilter 7).2.2.2 1 (by decide)⟩

/-- Claim C6: `snapToZero` examines every register of every channel: an element whose
magnitude is below the denormal threshold becomes exactly 0, and an element of
normal magnitude (at or above the threshold) is left unchanged. -/
theorem snapToZero_spec (s : BiLinearFilters) (thr : ℚ) (i : ℕ) :
    (i < s.Wn_1.length →
      (|s.Wn_1.getD i 0| < thr → (s.snapToZero thr).Wn_1.getD i 0 = 0) ∧
      (thr ≤ |s.Wn_1.getD i 0| → (s.snapToZero thr).Wn_1.getD i 0 = s.Wn_1.getD i 0)) ∧
    (i < s.Xn_1.length →
      (|s.Xn_1.getD i 0| < thr → (s.snapToZero thr).Xn_1.getD i 0 = 0) ∧
      (thr ≤ |s.Xn_1.getD i 0| → (s.snapToZero thr).Xn_1.getD i 0 = s.Xn_1.getD i 0)) ∧
    (i < s.Yn_1.length →
      (|s.Yn_1.getD i 0| < thr → (s.snapToZero thr).Yn_1.getD i 0 = 0) ∧
      (thr ≤ |s.Yn_1.getD i 0| → (s.snapToZero thr).Yn_1.getD i 0 = s.Yn_1.getD i 0)) := by
  refine ⟨fun hi => ?_, fun hi => ?_, fun hi => ?_⟩
  · have hlen : i < (s.Wn_1.map (snapOne thr)).length := by simpa using hi
    simp only [BiLinearFilters.snapToZero]
    rw [List.getD_eq_getElem _ _ hlen, List.getElem_map, List.getD_eq_getElem _ _ hi]
    unfold snapOne
    exact ⟨fun h => if_pos h, fun h => if_neg (not_lt.mpr h)⟩
  · have hlen : i < (s.Xn_1.map (snapOne thr)).length := by simpa using hi
    simp only [BiLinearFilters.snapToZero]
    rw [List.getD_eq_getElem _ _ hlen, List.getElem_map, List.getD_eq_getElem _ _ hi]
    unfold snapOne
    exact ⟨fun h => if_pos h, fun h => if_neg (not_lt.mpr h)⟩
  · have hlen : i < (s.Yn_1.map (snapOne thr)).length := by simpa using hi
    simp only [BiLinearFilters.snapToZero]
    rw [List.getD_eq_getElem _ _ hlen, List.getElem_map, List.getD_eq_getElem _ _ hi]
    unfold snapOne
    exact ⟨fun h => if_pos h, fun h => if_neg (not_lt.mpr h)⟩

/-- Claim C6 witness: with threshold 3 on the concrete state, the below-threshold
registers 2 and -2 snap to exactly 0 while the registers of magnitude at least 3
survive unchanged. -/
theorem snapToZero_spec_applied :
    (testFilter.snapToZero 3).Wn_1.getD 0 0 = 0 ∧
    (testFilter.snapToZero 3).Wn_1.getD 1 0 = testFilter.Wn_1.getD 1 0 ∧
    (testFilter.snapToZero 3).Xn_1.getD 1 0 = 0 ∧
    (testFilter.snapToZero 3).Xn_1.getD 0 0 = testFilter.Xn_1.getD 0 0 :=
  ⟨((snapToZero_spec testFilter 3 0).1 (by decide)).1 (by decide),
   ((snapToZero_spec testFilter 3 1).1 (by decide)).2 (by decide),
   ((snapToZero_spec testFilter 3 1).2.1 (by decide)).1 (by decide),
   ((snapToZero_spec testFilter 3 0).2.1 (by decide)).2 (by decide)⟩

/-- Claim C4: `setFrequency`, `setGain`, `setFilterType` and `setTransformType` never
touch the per-channel unit-delay registers `Wn_1`, `Xn_1`, `Yn_1`: they mutate only
the parameter target (or the active enum variant). -/
theorem setters_preserve_registers (s : BiLinearFilters) (f gv : ℚ)
    (ft : FilterType) (tt : TransformationType) :
    (∀ s', s.setFrequency f = Except.ok s' →
      s'.Wn_1 = s.Wn_1 ∧ s'.Xn_1 = s.Xn_1 ∧ s'.Yn_1 = s.Yn_1) ∧
    ((s.setGain gv).Wn_1 = s.Wn_1 ∧ (s.setGain gv).Xn_1 = s.Xn_1 ∧
      (s.setGain gv).Yn_1 = s.Yn_1) ∧
    ((s.setFilterType ft).Wn_1 = s.Wn_1 ∧ (s.setFilterType ft).Xn_1 = s.Xn_1 ∧
      (s.setFilterType ft).Yn_1 = s.Yn_1) ∧
    ((s.setTransformType tt).Wn_1 = s.Wn_1 ∧ (s.setTransformType tt).Xn_1 = s.Xn_1 ∧
      (s.setTransformType tt).Yn_1 = s.Yn_1) := by
  refine ⟨fun s' h => ?_, ⟨rfl, rfl, rfl⟩, ⟨rfl, rfl, rfl⟩, ⟨rfl, rfl, rfl⟩⟩
  unfold BiLinearFilters.setFrequency at h
  split at h
  · exact absurd h (by simp)
  · injection h with h2
    subst h2
    exact ⟨rfl, rfl, rfl⟩

/-- Claim C4 witness: on the concrete state, an accepted `setFrequency 440`, a
`setGain 3`, a `setFilterType` and a `setTransformType` all leave the register
arrays untouched. -/
theorem setters_preserve_registers_applied :
    (({ testFilter with hz := 440, frq := testFilter.frq.setTarget 440 } :
        BiLinearFilters).Wn_1 = testFilter.Wn_1) ∧
    ((testFilter.setGain 3).Wn_1 = testFilter.Wn_1 ∧
      (testFilter.setGain 3).Xn_1 = testFilter.Xn_1) ∧
    (testFilter.setFilterType FilterType.highShelf).Yn_1 = testFilter.Yn_1 ∧
    (testFilter.setTransformType TransformationType.directFormI).Wn_1 = testFilter.Wn_1 :=
  ⟨((setters_preserve_registers testFilter 440 3 FilterType.highShelf
        TransformationType.directFormI).1 _
      (by unfold BiLinearFilters.setFrequency; rw [if_neg (by decide)])).1,
   ⟨(setters_preserve_registers testFilter 440 3 FilterType.highShelf
        TransformationType.directFormI).2.1.1,
    (setters_preserve_registers testFilter 440 3 FilterType.highShelf
        TransformationType.directFormI).2.1.2.1⟩,
   (setters_preserve_registers testFilter 440 3 FilterType.highShelf
        TransformationType.directFormI).2.2.1.2.2,
   (setters_preserve_registers testFilter 440 3 FilterType.highShelf
        TransformationType.directFormI).2.2.2.1⟩

/-- Claim C2: with the in-class range members `minFreq = 20` and `maxFreq = 20000`,
`setFrequency f` fails with InvalidParameter for every `f` outside [20, 20000]
(returning no mutated state, so the smoothing target is untouched), and for every
`f` inside [20, 20000] it succeeds and installs `f` as the new frequency smoothing
target. -/
theorem setFrequency_range_check (s : BiLinearFilters) (f : ℚ)
    (hmin : s.minFreq = 20) (hmax : s.maxFreq = 20000) :
    ((f < 20 ∨ 20000 < f) →
      s.setFrequency f = Except.error SetterError.invalidParameter) ∧
    (20 ≤ f → f ≤ 20000 →
      s.setFrequency f = Except.ok { s with hz := f, frq := s.frq.setTarget f } ∧
      (s.frq.setTarget f).tgt = f) := by
  constructor
  · intro h
    unfold BiLinearFilters.setFrequency
    rw [if_pos]
    rw [hmin, hmax]
    exact h
  · intro h1 h2
    refine ⟨?_, rfl⟩
    unfold BiLinearFilters.setFrequency
    rw [if_neg]
    rw [hmin, hmax]
    push_neg
    exact ⟨h1, h2⟩

/-- Claim C2 witness: on the concrete state, `setFrequency 5` is rejected with
InvalidParameter and `setFrequency 440` succeeds, installing 440 as the frequency
smoothing target. -/
theorem setFrequency_range_check_applied :
    testFilter.setFrequency 5 = Except.error SetterError.invalidParameter ∧
    testFilter.setFrequency 440 =
      Except.ok { testFilter with hz := 440, frq := testFilter.frq.setTarget 440 } ∧
    (testFilter.frq.setTarget 440).tgt = 440 :=
  ⟨(setFrequency_range_check testFilter 5 rfl rfl).1 (Or.inl (by decide)),
   (setFrequency_range_check testFilter 440 rfl rfl).2 (by decide) (by decide)⟩

/-! ### Equivalence of the four direct-form realizations -/

/-- Direct Form I simulates Direct Form II transposed: when the transposed form's
single register holds the combined history `b1 * Xn_1 - a1 * Yn_1`, the two forms
produce the same outputs forever. -/
lemma runFilter_dfI_eq_dfIIT (c : Coeffs) :
    ∀ (xs : List ℚ) (x1 y1 s1 : ℚ), s1 = c.b1 * x1 - c.a1 * y1 →
      (runFilter (dfIStep c) (x1, y1) xs).2 = (runFilter (dfIITStep c) s1 xs).2 := by
  intro xs
  induction xs with
  | nil => intro x1 y1 s1 _; rfl
  | cons x xs ih =>
      intro x1 y1 s1 h
      simp only [runFilter, dfIStep, dfIITStep]
      subst h
      have hy : (c.b0 * x + c.b1 * x1 - c.a1 * y1) / c.a0 =
          (c.b0 * x + (c.b1 * x1 - c.a1 * y1)) / c.a0 := by
        ring_nf
      rw [hy]
      exact congrArg (List.cons _)
        (ih x ((c.b0 * x + (c.b1 * x1 - c.a1 * y1)) / c.a0) _ rfl)

/-- Direct Form I transposed simulates Direct Form II: when its two delay taps hold
`-a1 * w` and `b1 * w` for the Direct Form II register `w`, the two forms produce
the same outputs forever. -/
lemma runFilter_dfIT_eq_dfII (c : Coeffs) :
    ∀ (xs : List ℚ) (w : ℚ),
      (runFilter (dfITStep c) (-c.a1 * w, c.b1 * w) xs).2 =
        (runFilter (dfIIStep c) w xs).2 := by
  intro xs
  induction xs with
  | nil => intro w; rfl
  | cons x xs ih =>
      intro w
      simp only [runFilter, dfITStep, dfIIStep]
      have hv : (x + -c.a1 * w) / c.a0 = (x - c.a1 * w) / c.a0 := by ring_nf
      rw [hv]
      exact congrArg (List.cons _) (ih ((x - c.a1 * w) / c.a0))

/-- Direct Form II transposed simulates Direct Form II when the leading denominator
coefficient is nonzero: the combined register tracks `(a0*b1 - a1*b0) * w`. -/
lemma runFilter_dfIIT_eq_dfII (c : Coeffs) (h : c.a0 ≠ 0) :
    ∀ (xs : List ℚ) (w s1 : ℚ), s1 = (c.a0 * c.b1 - c.a1 * c.b0) * w →
      (runFilter (dfIITStep c) s1 xs).2 = (runFilter (dfIIStep c) w xs).2 := by
  intro xs
  induction xs with
  | nil => intro w s1 _; rfl
  | cons x xs ih =>
      intro w s1 hs
      simp only [runFilter, dfIITStep, dfIIStep]
      subst hs
      have hy : (c.b0 * x + (c.a0 * c.b1 - c.a1 * c.b0) * w) / c.a0 =
          c.b0 * ((x - c.a1 * w) / c.a0) + c.b1 * w := by
        field_simp
        ring
      rw [hy]
      refine congrArg (List.cons _) (ih ((x - c.a1 * w) / c.a0) _ ?_)
      field_simp
      ring

/-- Claim C3: for every coefficient set with a nonzero leading denominator tap (the
spec normalises the implicit leading 1 out of the denominator) and every input
sequence, the four per-sample realizations, each started from zeroed registers,
produce exactly equal output sequences — in the exact-rational model the outputs
coincide, hence they agree within any floating-point tolerance. -/
theorem directForm_equivalence (c : Coeffs) (xs : List ℚ) (h : c.a0 ≠ 0) :
    dfIOut c xs = dfIIOut c xs ∧ dfIOut c xs = dfITOut c xs ∧
    dfIOut c xs = dfIITOut c xs := by
  have h1 : dfIOut c xs = dfIITOut c xs := by
    unfold dfIOut dfIITOut
    exact runFilter_dfI_eq_dfIIT c xs 0 0 0 (by ring)
  have h2 : dfIITOut c xs = dfIIOut c xs := by
    unfold dfIITOut dfIIOut
    exact runFilter_dfIIT_eq_dfII c h xs 0 0 (by ring)
  have h3 : dfITOut c xs = dfIIOut c xs := by
    unfold dfITOut dfIIOut
    have hz := runFilter_dfIT_eq_dfII c xs 0
    simpa using hz
  exact ⟨h1.trans h2, ((h1.trans h2).trans h3.symm), h1⟩

/-- Claim C3 witness: the four realizations agree on the concrete coefficient set
`b0 = 1, b1 = 2, a0 = 1, a1 = 3` over the input sequence `[1, 0, 2]`. -/
theorem directForm_equivalence_applied :
    dfIOut ⟨1, 2, 1, 3⟩ [1, 0, 2] = dfIIOut ⟨1, 2, 1, 3⟩ [1, 0, 2] ∧
    dfIOut ⟨1, 2, 1, 3⟩ [1, 0, 2] = dfITOut ⟨1, 2, 1, 3⟩ [1, 0, 2] ∧
    dfIOut ⟨1, 2, 1, 3⟩ [1, 0, 2] = dfIITOut ⟨1, 2, 1, 3⟩ [1, 0, 2] :=
  directForm_equivalence ⟨1, 2, 1, 3⟩ [1, 0, 2] (by decide)

/-! ### Structure of the non-bypassed processing loops -/

/-- The inner loop produces exactly one output sample per input sample. -/
lemma runSamples_length (ch : ℕ) : ∀ (xs : List ℚ) (s : BiLinearFilters),
    (s.runSamples ch xs).2.length = xs.length := by
  intro xs
  induction xs with
  | nil => intro s; rfl
  | cons x xs ih =>
      intro s
      simp only [BiLinearFilters.runSamples, List.length_cons]
      simp [ih]

/-- Each output sample of the inner loop is `processSample` of the corresponding
input sample, evaluated in the state threaded through the samples before it. -/
lemma runSamples_getD : ∀ (xs : List ℚ) (s : BiLinearFilters) (ch i : ℕ),
    i < xs.length →
    (s.runSamples ch xs).2.getD i 0 =
      ((s.runSamples ch (xs.take i)).1.processSample ch (xs.getD i 0)).2 := by
  intro xs
  induction xs with
  | nil => intro s ch i h; exact absurd h (by simp)
  | cons x xs ih =>
      intro s ch i h
      cases i with
      | zero => simp [BiLinearFilters.runSamples]
      | succ i =>
          simp only [BiLinearFilters.runSamples, List.take_succ_cons, List.getD_cons_succ]
          exact ih (s.processSample ch x).1 ch i (by simpa using h)

/-- The outer loop produces exactly one output channel per input channel. -/
lemma runChannels_length : ∀ (cs : List (List ℚ)) (s : BiLinearFilters) (ch : ℕ),
    (s.runChannels ch cs).2.length = cs.length := by
  intro cs
  induction cs with
  | nil => intro s ch; rfl
  | cons chan rest ih =>
      intro s ch
      simp only [BiLinearFilters.runChannels, List.length_cons]
      simp [ih]

/-- Each output channel of the outer loop is the inner loop run on the corresponding
input channel, in the state threaded through the channels before it. -/
lemma runChannels_getD : ∀ (cs : List (List ℚ)) (s : BiLinearFilters) (ch c : ℕ),
    c < cs.length →
    (s.runChannels ch cs).2.getD c [] =
      ((s.runChannels ch (cs.take c)).1.runSamples (ch + c) (cs.getD c [])).2 := by
  intro cs
  induction cs with
  | nil => intro s ch c h; exact absurd h (by simp)
  | cons chan rest ih =>
      intro s ch c h
      cases c with
      | zero => simp [BiLinearFilters.runChannels]
      | succ c =>
          simp only [BiLinearFilters.runChannels, List.take_succ_cons, List.getD_cons_succ]
          rw [ih (s.runSamples ch chan).1 (ch + 1) c (by simpa using h)]
          have harith : ch + 1 + c = ch + (c + 1) := by omega
          rw [harith]

/-- Claim C10: under the precondition that the input block and output block agree in
shape (here: the input block has `numChannels` channels of `numSamples` samples
each, the dimensions the loop bounds of `process` read), the non-bypassed branch
writes every sample of every output channel: the output block has exactly
`numChannels` channels of exactly `numSamples` samples, and output sample `i` of
channel `c` is `processSample` of the corresponding input sample, evaluated in the
state threaded through all earlier channels and samples in channel-major order. -/
theorem process_unbypassed_writes_all (s : BiLinearFilters) (input : List (List ℚ))
    (numChannels numSamples : ℕ)
    (hch : input.length = numChannels)
    (hs : ∀ chan ∈ input, chan.length = numSamples) :
    (s.process input false).2.length = numChannels ∧
    ∀ c, c < numChannels →
      ((s.process input false).2.getD c []).length = numSamples ∧
      ∀ i, i < numSamples →
        ((s.process input false).2.getD c []).getD i 0 =
          (((s.runChannels 0 (input.take c)).1.runSamples c
              ((input.getD c []).take i)).1.processSample c
            ((input.getD c []).getD i 0)).2 := by
  have hproc : (s.process input false).2 = (s.runChannels 0 input).2 := rfl
  constructor
  · rw [hproc, runChannels_length, hch]
  · intro c hc
    have hc' : c < input.length := by rwa [hch]
    have hchan : (input.getD c []).length = numSamples := by
      refine hs (input.getD c []) ?_
      rw [List.getD_eq_getElem _ _ hc']
      exact List.getElem_mem hc'
    rw [hproc, runChannels_getD input s 0 c hc']
    simp only [Nat.zero_add]
    constructor
    · rw [runSamples_length, hchan]
    · intro i hi
      have hi' : i < (input.getD c []).length := by rwa [hchan]
      rw [runSamples_getD _ _ _ i hi']

/-- Claim C10 witness: processing the concrete two-channel, two-sample block through
the concrete filter state yields an output block of the same shape. -/
theorem process_unbypassed_writes_all_applied :
    (testFilter.process [[1, 2], [3, 4]] false).2.length = 2 ∧
    ((testFilter.process [[1, 2], [3, 4]] false).2.getD 1 []).length = 2 :=
  ⟨(process_unbypassed_writes_all testFilter [[1, 2], [3, 4]] 2 2 rfl
      (by intro chan hc; fin_cases hc <;> rfl)).1,
   ((process_unbypassed_writes_all testFilter [[1, 2], [3, 4]] 2 2 rfl
      (by intro chan hc; fin_cases hc <;> rfl)).2 1 (by decide)).1⟩

/-! ### Gain independence for pass filter types -/

/-- For the pass filter types the coefficient formulas do not involve the gain. -/
lemma coefficients_pass_gain_irrel (t : FilterType)
    (hp : t = FilterType.lowPass ∨ t = FilterType.highPass) (sr f g1 g2 : ℚ) :
    coefficients t sr f g1 = coefficients t sr f g2 := by
  rcases hp with h | h <;> subst h <;> rfl

/-- `processSample` advances the gain smoother exactly once and never changes the
filter type. -/
lemma processSample_frame (s : BiLinearFilters) (ch : ℕ) (x : ℚ) :
    (s.processSample ch x).1.lev = s.lev.advance ∧
    (s.processSample ch x).1.filtType = s.filtType := by
  obtain ⟨sr, rd, wn, xn, yn, cb0, cb1, ca0, ca1, fr, le, mn, mx, chz, cg, ft, tt⟩ := s
  simp only [BiLinearFilters.processSample]
  split <;> cases tt <;> exact ⟨rfl, rfl⟩

/-- One-step gain independence: for a pass filter type, replacing the gain smoother
(with one of equal countdown) and the gain parameter changes neither the output of
`processSample` nor any other component of the resulting state. -/
lemma processSample_gain_congr (s : BiLinearFilters) (l : LinSmoother) (gv : ℚ)
    (ch : ℕ) (x : ℚ)
    (hp : s.filtType = FilterType.lowPass ∨ s.filtType = FilterType.highPass)
    (hcd : l.countdown = s.lev.countdown) :
    ({ s with lev := l, g := gv } : BiLinearFilters).processSample ch x =
      ({ (s.processSample ch x).1 with lev := l.advance, g := gv },
        (s.processSample ch x).2) := by
  obtain ⟨sr, rd, wn, xn, yn, cb0, cb1, ca0, ca1, fr, le, mn, mx, chz, cg, ft, tt⟩ := s
  simp only at hp hcd
  simp only [BiLinearFilters.processSample, BiLinearFilters.isSmoothing]
  rw [hcd]
  by_cases hsm : fr.countdown ≠ 0 ∨ le.countdown ≠ 0
  · rw [if_pos hsm, if_pos hsm,
      coefficients_pass_gain_irrel ft hp sr fr.advance.cur l.advance.cur le.advance.cur]
    cases tt <;> rfl
  · rw [if_neg hsm, if_neg hsm]
    cases tt <;> rfl

/-- The inner loop advances the gain smoother once per sample and keeps the filter
type. -/
lemma runSamples_frame : ∀ (xs : List ℚ) (s : BiLinearFilters) (ch : ℕ),
    (s.runSamples ch xs).1.lev = LinSmoother.advance^[xs.length] s.lev ∧
    (s.runSamples ch xs).1.filtType = s.filtType := by
  intro xs
  induction xs with
  | nil => intro s ch; exact ⟨rfl, rfl⟩
  | cons x xs ih =>
      intro s ch
      simp only [BiLinearFilters.runSamples, List.length_cons]
      constructor
      · rw [(ih (s.processSample ch x).1 ch).1, (processSample_frame s ch x).1,
          Function.iterate_succ_apply]
      · rw [(ih (s.processSample ch x).1 ch).2, (processSample_frame s ch x).2]

/-- Gain independence over one channel: for a pass filter type the whole inner loop
is insensitive to the gain smoother's value and the gain parameter. -/
lemma runSamples_gain_congr : ∀ (xs : List ℚ) (s : BiLinearFilters) (l : LinSmoother)
    (gv : ℚ) (ch : ℕ),
    (s.filtType = FilterType.lowPass ∨ s.filtType = FilterType.highPass) →
    l.countdown = s.lev.countdown →
    ({ s with lev := l, g := gv } : BiLinearFilters).runSamples ch xs =
      ({ (s.runSamples ch xs).1 with
          lev := LinSmoother.advance^[xs.length] l, g := gv },
        (s.runSamples ch xs).2) := by
  intro xs
  induction xs with
  | nil => intro s l gv ch hp hcd; simp [BiLinearFilters.runSamples]
  | cons x xs ih =>
      intro s l gv ch hp hcd
      have hframe := processSample_frame s ch x
      simp only [BiLinearFilters.runSamples, List.length_cons]
      rw [processSample_gain_congr s l gv ch x hp hcd]
      rw [ih (s.processSample ch x).1 l.advance gv ch
        (by rw [hframe.2]; exact hp)
        (by rw [hframe.1, LinSmoother.linAdvance_countdown, LinSmoother.linAdvance_countdown, hcd])]
      rw [Function.iterate_succ_apply]

/-- Gain independence over a whole block: for a pass filter type the outer loop is
insensitive to the gain smoother's value and the gain parameter. -/
lemma runChannels_gain_congr : ∀ (cs : List (List ℚ)) (s : BiLinearFilters)
    (l : LinSmoother) (gv : ℚ) (ch : ℕ),
    (s.filtType = FilterType.lowPass ∨ s.filtType = FilterType.highPass) →
    l.countdown = s.lev.countdown →
    ({ s with lev := l, g := gv } : BiLinearFilters).runChannels ch cs =
      ({ (s.runChannels ch cs).1 with
          lev := LinSmoother.advance^[(cs.map List.length).sum] l, g := gv },
        (s.runChannels ch cs).2) := by
  intro cs
  induction cs with
  | nil => intro s l gv ch hp hcd; simp [BiLinearFilters.runChannels]
  | cons chan rest ih =>
      intro s l gv ch hp hcd
      have hframe := runSamples_frame chan s ch
      simp only [BiLinearFilters.runChannels, List.map_cons, List.sum_cons]
      rw [runSamples_gain_congr chan s l gv ch hp hcd]
      rw [ih (s.runSamples ch chan).1 (LinSmoother.advance^[chan.length] l) gv (ch + 1)
        (by rw [hframe.2]; exact hp)
        (by rw [hframe.1, LinSmoother.linIterate_advance_countdown,
              LinSmoother.linIterate_advance_countdown, hcd])]
      rw [← Function.iterate_add_apply,
        Nat.add_comm ((List.map List.length rest).sum) chan.length]

/-- Claim C7: with the filter type set to a pass type (lowPass or highPass), calling
`setGain` has no effect on the produced output: for all gains `g1`, `g2` and every
input block, processing after `setGain g1` yields the same output block as
processing after `setGain g2`. -/
theorem setGain_no_effect_for_pass (s : BiLinearFilters) (g1 g2 : ℚ)
    (input : List (List ℚ))
    (hp : s.filtType = FilterType.lowPass ∨ s.filtType = FilterType.highPass) :
    ((s.setGain g1).process input false).2 = ((s.setGain g2).process input false).2 := by
  have e1 : (s.setGain g1).process input false = (s.setGain g1).runChannels 0 input := rfl
  have e2 : (s.setGain g2).process input false = (s.setGain g2).runChannels 0 input := rfl
  have key := runChannels_gain_congr input { s with lev := s.lev.setTarget g2, g := g2 }
    (s.lev.setTarget g1) g1 0 (by simpa using hp) rfl
  have e3 : ({ ({ s with lev := s.lev.setTarget g2, g := g2 } : BiLinearFilters) with
      lev := s.lev.setTarget g1, g := g1 } : BiLinearFilters) = s.setGain g1 := rfl
  have e4 : ({ s with lev := s.lev.setTarget g2, g := g2 } : BiLinearFilters) =
      s.setGain g2 := rfl
  rw [e1, e2]
  rw [e3, e4] at key
  rw [key]

/-- Claim C7 witness: on the concrete state (filter type lowPass), processing the
concrete block after `setGain 1` and after `setGain 2` yields identical output. -/
theorem setGain_no_effect_for_pass_applied :
    ((testFilter.setGain 1).process [[1, 2], [3, 4]] false).2 =
      ((testFilter.setGain 2).process [[1, 2], [3, 4]] false).2 :=
  setGain_no_effect_for_pass testFilter 1 2 [[1, 2], [3, 4]] (Or.inl rfl)

end BiLinearEQ
